import Mathlib

/-!
Verification of the node-sqs queueing service against its specification.

The JavaScript source (the canonical version of lib/sqs.js) is shallowly
embedded: the constructor becomes a function returning `Except` (a thrown
`Error` becomes `Except.error`), the mutable instance becomes the record
`Sqs`, promise chains become pure functions that return the list of
observable side effects they issue (in settlement order), and the
long-poll worker pool becomes a small-step transition system `PoolState`
with a reachability predicate. JSON.parse and JSON.stringify are
abstracted as caller-supplied `parse` and `stringify` oracles, since the
platform JSON codec is an external collaborator; all control flow around
them is taken from the source.
-/

namespace NodeSqs

/-- Outcome of the caller-supplied job handler: the promise either settles
successfully (any non-failure outcome) or signals failure by rejecting or
throwing. -/
inductive HandlerResult where
  | success : HandlerResult
  | failure : HandlerResult
  deriving DecidableEq, Repr

/-- A raw SQS message item as delivered by receiveMessage: `body` is the raw
string payload (jobItem.Body) and `receiptHandle` (jobItem.ReceiptHandle) the
completion token used to delete the message. -/
structure JobItem where
  body : String
  receiptHandle : String
  deriving DecidableEq, Repr

/-- Observable side effects of the service, ordered as they are issued.
`logWarnParse` is the warning logged with the offending raw item on a JSON
parse failure, `handlerInvoke` an invocation of the caller-supplied handler
with the parsed payload, `deleteCall` a deleteMessage request carrying a
receipt handle, `sendMessage` a sendMessage request carrying a serialized
body. -/
inductive Ev (α : Type) where
  | logWarnParse (item : JobItem) : Ev α
  | handlerInvoke (payload : α) : Ev α
  | deleteCall (receiptHandle : String) : Ev α
  | sendMessage (body : String) : Ev α
  deriving DecidableEq, Repr

/-- The per-instance state of the service. Mirrors the fields the constructor
initializes and dispose mutates: `sqs` is whether the AWS client handle is
set (null until init, nulled again by dispose), `heartbeatInterval` whether
the heartbeat timer is armed, `method` whether the job processor is stored,
`concurrentOpsLimit` and `url` become `none` when dispose nulls them, and the
four `...Replaced` flags record which method slots dispose has overwritten
with inert no-ops (dispose reassigns startFetch, _processMessages,
_invokeMethod and _mainLoop; it does not reassign _completeJob or
_receiveMessages). The logger handle and the derived pathname, used only for
log text, are not modeled. -/
structure Sqs where
  sqs : Bool
  heartbeatInterval : Bool
  method : Bool
  concurrentOpsLimit : Option Nat
  longPollsRequired : Nat
  longPollsInFlight : Int
  url : Option String
  isDisposed : Bool
  startFetchReplaced : Bool
  processMessagesReplaced : Bool
  invokeMethodReplaced : Bool
  mainLoopReplaced : Bool
  deriving DecidableEq, Repr

deriving instance DecidableEq for Except

/-- The record a successful construction produces, given the computed count
of required long polls. -/
def mkSqsState (sqsUrl : String) (concurrentOpsLimit : Nat)
    (polsRequired : Nat) : Sqs :=
  { sqs := false, heartbeatInterval := false, method := false,
    concurrentOpsLimit := some concurrentOpsLimit,
    longPollsRequired := polsRequired, longPollsInFlight := 0,
    url := some sqsUrl, isDisposed := false,
    startFetchReplaced := false, processMessagesReplaced := false,
    invokeMethodReplaced := false, mainLoopReplaced := false }

/-- The constructor: polsRequired starts at 1; when the limit exceeds 10 it
must be a multiple of 10, otherwise an Error is thrown (modeled as
`Except.error`), and polsRequired becomes limit / 10. All other limits
construct successfully with the fields initialized as in the source. -/
def mkSqs (sqsUrl : String) (concurrentOpsLimit : Nat) : Except String Sqs :=
  if 10 < concurrentOpsLimit then
    if concurrentOpsLimit % 10 ≠ 0 then
      Except.error
        "You can only define multiples of 10 beyond 10 concurrent operations limit"
    else
      Except.ok (mkSqsState sqsUrl concurrentOpsLimit (concurrentOpsLimit / 10))
  else
    Except.ok (mkSqsState sqsUrl concurrentOpsLimit 1)

/-- MaxNumberOfMessages computed at the start of each receive request:
maxMessages starts at 10 and is replaced by concurrentOpsLimit when that
compares below 10. After dispose the stored limit is null, and the JS
comparison null < 10 holds, so the request would carry a null maximum,
modeled as `none`. -/
def Sqs.maxMessages (s : Sqs) : Option Nat :=
  match s.concurrentOpsLimit with
  | some limit => if limit < 10 then some limit else some 10
  | none => none

/-- C2: for every positive integer limit L, construction succeeds exactly
when L is at most 10, or L exceeds 10 and is a multiple of 10; for every
other positive integer the constructor itself returns the configuration
error (before any fetch can be started, since no instance exists). -/
theorem c2_construction_succeeds_iff (u : String) (L : Nat) (h : 0 < L) :
    ((mkSqs u L).isOk = true ↔ (L ≤ 10 ∨ (10 < L ∧ L % 10 = 0))) ∧
    (¬(L ≤ 10 ∨ (10 < L ∧ L % 10 = 0)) →
      mkSqs u L = Except.error
        "You can only define multiples of 10 beyond 10 concurrent operations limit") := by
  by_cases h10 : 10 < L
  · by_cases hmod : L % 10 = 0
    · constructor
      · simp [mkSqs, h10, hmod, Except.isOk, Except.toBool]
      · intro hcon
        exact absurd (Or.inr ⟨h10, hmod⟩) hcon
    · constructor
      · simp [mkSqs, h10, hmod, Except.isOk, Except.toBool]
      · intro hcon
        simp [mkSqs, h10, hmod]
  · constructor
    · simp [mkSqs, h10, Except.isOk, Except.toBool]
      omega
    · intro hcon
      exact absurd (Or.inl (by omega)) hcon

/-- Closed instance of the C2 theorem at the limits 7, 40 and 15. -/
theorem c2_construction_succeeds_iff_witness :
    (0 < 7 ∧ ((mkSqs "u" 7).isOk = true ↔ (7 ≤ 10 ∨ (10 < 7 ∧ 7 % 10 = 0)))) ∧
    (0 < 40 ∧ ((mkSqs "u" 40).isOk = true ↔ (40 ≤ 10 ∨ (10 < 40 ∧ 40 % 10 = 0)))) ∧
    (0 < 15 ∧ (¬(15 ≤ 10 ∨ (10 < 15 ∧ 15 % 10 = 0)) →
      mkSqs "u" 15 = Except.error
        "You can only define multiples of 10 beyond 10 concurrent operations limit")) :=
  ⟨⟨by decide, (c2_construction_succeeds_iff "u" 7 (by decide)).1⟩,
   ⟨by decide, (c2_construction_succeeds_iff "u" 40 (by decide)).1⟩,
   ⟨by decide, (c2_construction_succeeds_iff "u" 15 (by decide)).2⟩⟩

/-- C5: for every valid limit L the constructed instance requires 1 long
poll when L is at most 10 and L / 10 long polls otherwise, and each receive
request asks for min 10 L messages. -/
theorem c5_workers_and_batch_size (u : String) (L : Nat) (inst : Sqs)
    (h : 0 < L) (hmk : mkSqs u L = Except.ok inst) :
    inst.longPollsRequired = (if L ≤ 10 then 1 else L / 10) ∧
    inst.maxMessages = some (min 10 L) := by
  unfold mkSqs at hmk
  by_cases h10 : 10 < L
  · by_cases hmod : L % 10 = 0
    · simp [h10, hmod] at hmk
      subst hmk
      have hmin : min 10 L = 10 := by omega
      constructor
      · rw [if_neg (show ¬ L ≤ 10 by omega)]
        simp [mkSqsState]
      · simp [mkSqsState, Sqs.maxMessages, hmin]
        omega
    · simp [h10, hmod] at hmk
  · simp [h10] at hmk
    subst hmk
    constructor
    · rw [if_pos (show L ≤ 10 by omega)]
      simp [mkSqsState]
    · by_cases hL : L < 10
      · have hmin : min 10 L = L := by omega
        simp [mkSqsState, Sqs.maxMessages, hmin, hL]
      · have hL10 : L = 10 := by omega
        subst hL10
        simp [mkSqsState, Sqs.maxMessages]

/-- Closed instance of the C5 theorem at limits 7 and 40. -/
theorem c5_workers_and_batch_size_witness :
    (0 < 7 ∧ mkSqs "u" 7 = Except.ok (mkSqsState "u" 7 1) ∧
      ((mkSqsState "u" 7 1).longPollsRequired = (if 7 ≤ 10 then 1 else 7 / 10) ∧
        (mkSqsState "u" 7 1).maxMessages = some (min 10 7))) ∧
    (0 < 40 ∧ mkSqs "u" 40 = Except.ok (mkSqsState "u" 40 4) ∧
      ((mkSqsState "u" 40 4).longPollsRequired = (if 40 ≤ 10 then 1 else 40 / 10) ∧
        (mkSqsState "u" 40 4).maxMessages = some (min 10 40))) :=
  ⟨⟨by decide, rfl, c5_workers_and_batch_size "u" 7 _ (by decide) rfl⟩,
   ⟨by decide, rfl, c5_workers_and_batch_size "u" 40 _ (by decide) rfl⟩⟩

/-- C8 counterexample: the claim asserts every limit from 1 to 9 fails
construction, but the constructor accepts the limit 5 (the multiples-of-10
check only applies above 10), so construction succeeds at 5 even though 5 is
neither exactly 10 nor a multiple of 10 above 10. -/
theorem c8_counterexample :
    (mkSqs "u" 5).isOk = true ∧ ¬(5 = 10 ∨ (10 < 5 ∧ 5 % 10 = 0)) := by
  decide

/-- C8 amended: construction fails exactly for the limits above 10 that are
not multiples of 10; every limit up to 10 (including 1 to 9) and every
multiple of 10 above 10 is accepted. -/
theorem c8_amended_validity (u : String) (L : Nat) (h : 0 < L) :
    (mkSqs u L).isOk = false ↔ (10 < L ∧ L % 10 ≠ 0) := by
  by_cases h10 : 10 < L
  · by_cases hmod : L % 10 = 0
    · simp [mkSqs, h10, hmod, Except.isOk, Except.toBool]
    · simp [mkSqs, h10, hmod, Except.isOk, Except.toBool]
  · simp [mkSqs, h10, Except.isOk, Except.toBool]

/-- Closed instance of the C8 amended theorem at the limits 5 and 15. -/
theorem c8_amended_validity_witness :
    (0 < 5 ∧ ((mkSqs "u" 5).isOk = false ↔ (10 < 5 ∧ 5 % 10 ≠ 0))) ∧
    (0 < 15 ∧ ((mkSqs "u" 15).isOk = false ↔ (10 < 15 ∧ 15 % 10 ≠ 0))) :=
  ⟨⟨by decide, c8_amended_validity "u" 5 (by decide)⟩,
   ⟨by decide, c8_amended_validity "u" 15 (by decide)⟩⟩

/-- The completeJob method: builds the delete parameters from the receipt
handle and issues the deleteMessage request; a failure of the delete call is
caught and logged, never retried, so exactly one delete request is issued
per invocation. The method has no disposed guard and dispose never
reassigns it. -/
def completeJob (α : Type) (receiptHandle : String) : List (Ev α) :=
  [Ev.deleteCall receiptHandle]

/-- The invokeMethod method: JSON.parse the item body (the oracle result
`none` models a parse throw); on failure log a warning with the offending
item and return with no further effect. On success invoke the stored
handler with the parsed payload; when the handler promise settles
successfully the then continuation calls completeJob with the receipt
handle of the item; when it rejects or throws the continuation is skipped
and the rejection propagates to the worker chain, so no delete is issued.
The returned list records the effects in settlement order. -/
def invokeMethod (α : Type) (parse : String → Option α)
    (handler : α → HandlerResult) (jobItem : JobItem) : List (Ev α) :=
  match parse jobItem.body with
  | none => [Ev.logWarnParse jobItem]
  | some data =>
    Ev.handlerInvoke data ::
      (match handler data with
       | HandlerResult.success => completeJob α jobItem.receiptHandle
       | HandlerResult.failure => [])

/-- C1: for every received item whose body parses, the handler is invoked
with the parsed payload; when the handler settles successfully the effect
trace is exactly the handler invocation followed by one delete call with
the receipt handle of that item (so the delete is issued after the handler
settles and exactly once); when the handler fails, no delete call for any
receipt handle appears. -/
theorem c1_parsed_item_ack_contract (α : Type) (parse : String → Option α)
    (handler : α → HandlerResult) (item : JobItem) (data : α)
    (hparse : parse item.body = some data) :
    Ev.handlerInvoke data ∈ invokeMethod α parse handler item ∧
    (handler data = HandlerResult.success →
      invokeMethod α parse handler item =
        [Ev.handlerInvoke data, Ev.deleteCall item.receiptHandle]) ∧
    (handler data = HandlerResult.failure →
      ∀ rh, Ev.deleteCall rh ∉ invokeMethod α parse handler item) := by
  refine ⟨?_, ?_, ?_⟩
  · simp [invokeMethod, hparse]
  · intro hs
    simp [invokeMethod, hparse, hs, completeJob]
  · intro hf rh
    simp [invokeMethod, hparse, hf]

/-- A concrete parse oracle for witnesses: the body "7" parses to the
payload 7, every other body fails to parse. -/
def parseSeven (s : String) : Option Nat :=
  if s = "7" then some 7 else none

/-- Closed instance of the C1 theorem: a body parsing to the payload 7 with
an always-succeeding handler. -/
theorem c1_parsed_item_ack_contract_witness :
    parseSeven "7" = some 7 ∧
    (Ev.handlerInvoke 7 ∈
        invokeMethod Nat parseSeven (fun _ => HandlerResult.success)
          (JobItem.mk "7" "rh-1") ∧
      ((fun (_ : Nat) => HandlerResult.success) 7 = HandlerResult.success →
        invokeMethod Nat parseSeven (fun _ => HandlerResult.success)
            (JobItem.mk "7" "rh-1") =
          [Ev.handlerInvoke 7, Ev.deleteCall "rh-1"]) ∧
      ((fun (_ : Nat) => HandlerResult.success) 7 = HandlerResult.failure →
        ∀ rh, Ev.deleteCall rh ∉
          invokeMethod Nat parseSeven (fun _ => HandlerResult.success)
            (JobItem.mk "7" "rh-1"))) :=
  ⟨by decide,
   c1_parsed_item_ack_contract Nat parseSeven (fun _ => HandlerResult.success)
     (JobItem.mk "7" "rh-1") 7 (by decide)⟩

/-- C6: for every received item whose body fails to parse, the effect trace
is exactly one warning logged with the offending raw item: the handler is
never invoked for it and no delete call is ever issued for it. -/
theorem c6_parse_failure_left (α : Type) (parse : String → Option α)
    (handler : α → HandlerResult) (item : JobItem)
    (hparse : parse item.body = none) :
    invokeMethod α parse handler item = [Ev.logWarnParse item] ∧
    (∀ d, Ev.handlerInvoke d ∉ invokeMethod α parse handler item) ∧
    (∀ rh, Ev.deleteCall rh ∉ invokeMethod α parse handler item) := by
  refine ⟨?_, ?_, ?_⟩
  · simp [invokeMethod, hparse]
  · intro d
    simp [invokeMethod, hparse]
  · intro rh
    simp [invokeMethod, hparse]

/-- Closed instance of the C6 theorem: a body that does not parse as a
natural number. -/
theorem c6_parse_failure_left_witness :
    parseSeven "not json" = none ∧
    (invokeMethod Nat parseSeven (fun _ => HandlerResult.success)
        (JobItem.mk "not json" "rh-2") =
      [Ev.logWarnParse (JobItem.mk "not json" "rh-2")] ∧
      (∀ d, Ev.handlerInvoke d ∉
        invokeMethod Nat parseSeven (fun _ => HandlerResult.success)
          (JobItem.mk "not json" "rh-2")) ∧
      (∀ rh, Ev.deleteCall rh ∉
        invokeMethod Nat parseSeven (fun _ => HandlerResult.success)
          (JobItem.mk "not json" "rh-2"))) :=
  ⟨by decide,
   c6_parse_failure_left Nat parseSeven (fun _ => HandlerResult.success)
     (JobItem.mk "not json" "rh-2") (by decide)⟩

/-- The dispose method: when the instance is already disposed it returns at
once; otherwise it sets the disposed flag, replaces startFetch,
_processMessages and _invokeMethod with functions resolving to nothing and
_mainLoop with a no-op, clears the heartbeat interval, and nulls the client
handle, the limit, the url and the stored handler. The body cannot throw, so
the promise always resolves, modeled as `Except.ok`. -/
def Sqs.dispose (s : Sqs) : Except String Sqs :=
  if s.isDisposed then
    Except.ok s
  else
    Except.ok
      { s with
          isDisposed := true,
          startFetchReplaced := true, processMessagesReplaced := true,
          invokeMethodReplaced := true, mainLoopReplaced := true,
          heartbeatInterval := false,
          sqs := false, concurrentOpsLimit := none, url := none,
          method := false }

/-- C9: dispose is idempotent: a second call on the instance returned by a
first dispose resolves successfully (does not error) and returns the state
unchanged from the first disposal. -/
theorem c9_dispose_idempotent (s t : Sqs) (h : Sqs.dispose s = Except.ok t) :
    Sqs.dispose t = Except.ok t := by
  unfold Sqs.dispose at h ⊢
  by_cases hd : s.isDisposed
  · simp [hd] at h
    subst h
    simp [hd]
  · simp [hd] at h
    subst h
    simp

/-- Closed instance of the C9 theorem: disposing a freshly constructed
instance twice. -/
theorem c9_dispose_idempotent_witness :
    Sqs.dispose (mkSqsState "u" 10 1) =
      Except.ok (Sqs.mk false false false none 1 0 none true true true true true) ∧
    Sqs.dispose (Sqs.mk false false false none 1 0 none true true true true true) =
      Except.ok (Sqs.mk false false false none 1 0 none true true true true true) :=
  ⟨by decide,
   c9_dispose_idempotent (mkSqsState "u" 10 1)
     (Sqs.mk false false false none 1 0 none true true true true true) (by decide)⟩

/-- The createJob method: when the instance is disposed it throws the error
Instance is disposed, which Promise.method turns into a rejected promise,
before anything is sent; otherwise it serializes the payload with
JSON.stringify (the `stringify` oracle) and issues one sendMessage request
with the serialized body. -/
def Sqs.createJob (α : Type) (stringify : α → String) (s : Sqs) (data : α) :
    Except String (List (Ev α)) :=
  if s.isDisposed then
    Except.error "Instance is disposed"
  else
    Except.ok [Ev.sendMessage (stringify data)]

/-- C10: on every disposed instance, createJob returns the rejection
Instance is disposed and issues no send to the backend (the error carries no
effect trace, and the throw precedes the sendMessage call in the source). -/
theorem c10_createjob_after_dispose_rejects (α : Type) (stringify : α → String)
    (s t : Sqs) (data : α) (h : Sqs.dispose s = Except.ok t) :
    Sqs.createJob α stringify t data = Except.error "Instance is disposed" := by
  have hd : t.isDisposed = true := by
    unfold Sqs.dispose at h
    by_cases hs : s.isDisposed
    · simp [hs] at h
      subst h
      exact hs
    · simp [hs] at h
      subst h
      rfl
  unfold Sqs.createJob
  simp [hd]

/-- Closed instance of the C10 theorem: createJob on a disposed instance
built from a fresh one. -/
theorem c10_createjob_after_dispose_rejects_witness :
    Sqs.dispose (mkSqsState "u" 10 1) =
      Except.ok (Sqs.mk false false false none 1 0 none true true true true true) ∧
    Sqs.createJob Nat (fun n => Nat.repr n)
        (Sqs.mk false false false none 1 0 none true true true true true) 42 =
      Except.error "Instance is disposed" :=
  ⟨by decide,
   c10_createjob_after_dispose_rejects Nat (fun n => Nat.repr n)
     (mkSqsState "u" 10 1)
     (Sqs.mk false false false none 1 0 none true true true true true) 42 (by decide)⟩

/-- A JS Error value: the message together with the ownError marker the
source attaches to conditions it raises internally so that the worker catch
can swallow them. -/
structure JsError where
  message : String
  ownError : Bool
  deriving DecidableEq, Repr

/-- The original processMessages method, as captured by a worker chain when
it was built: when the instance is disposed it throws an ownError marked
Instance Disposed; when the receive response carries no Messages array it
throws an ownError marked no messages (the silent empty-batch rewind);
otherwise it returns the messages array for dispatch. -/
def Sqs.processMessages (s : Sqs) (messagesRaw : Option (List JobItem)) :
    Except JsError (List JobItem) :=
  if s.isDisposed then
    Except.error (JsError.mk "Instance Disposed" true)
  else
    match messagesRaw with
    | none => Except.error (JsError.mk "no messages" true)
    | some messages => Except.ok messages

/-- The continuation chain a long-poll worker runs when its receive
response arrives: then processMessages, map invokeMethod, catch, finally.
The method values were captured at chain construction, before any dispose,
so the original processMessages and invokeMethod run even when dispose
happened while the long poll was outstanding; in that case the original
processMessages throws its disposed ownError, the catch sees the disposed
flag and swallows it silently, and nothing is dispatched: no handler
invocation and no delete call. The returned list is the concatenation of
the per-item effect traces of the batch. -/
def Sqs.receiveResponse (α : Type) (s : Sqs) (parse : String → Option α)
    (handler : α → HandlerResult) (messagesRaw : Option (List JobItem)) :
    List (Ev α) :=
  match s.processMessages messagesRaw with
  | Except.error _ => []
  | Except.ok messages => (messages.map (invokeMethod α parse handler)).flatten

/-- The success continuation invokeMethod installs after the handler
promise: it calls the current this._completeJob with the receipt handle of
the item. dispose replaces startFetch, _processMessages, _invokeMethod and
_mainLoop with inert functions, but never _completeJob, and _completeJob
itself has no disposed guard and uses the still-present promisified
deleteMessage binding; the continuation therefore issues the delete call in
every state, disposed or not. -/
def Sqs.handlerSettleSuccess (α : Type) (s : Sqs) (receiptHandle : String) :
    List (Ev α) :=
  completeJob α receiptHandle

/-- C3 counterexample: dispose an instance while a handler invocation is in
flight; when that handler settles successfully after disposal, the success
continuation still calls completeJob and a delete call is issued, because
dispose neither replaces nor guards _completeJob. This contradicts the
claim that after dispose no completion call ever occurs even if a handler
invocation was in flight at the moment of disposal. -/
theorem c3_counterexample :
    Sqs.dispose (mkSqsState "u" 10 1) =
      Except.ok (Sqs.mk false false false none 1 0 none true true true true true) ∧
    (Sqs.mk false false false none 1 0 none true true true true true).isDisposed
      = true ∧
    Sqs.handlerSettleSuccess Nat
        (Sqs.mk false false false none 1 0 none true true true true true) "rh-1" =
      [Ev.deleteCall "rh-1"] := by
  decide

/-- C3 amended: after dispose, a long-poll operation that was in flight at
disposal leads to no handler invocation and no completion call (the
captured original processMessages throws its disposed ownError, which the
catch swallows), so no new handler invocation ever occurs; however a
handler invocation already in flight at disposal that settles successfully
afterwards still issues its completion (delete) call, since dispose leaves
_completeJob in place. -/
theorem c3_amended_dispose_guard (α : Type) (s : Sqs)
    (parse : String → Option α) (handler : α → HandlerResult)
    (messagesRaw : Option (List JobItem)) (receiptHandle : String)
    (hd : s.isDisposed = true) :
    Sqs.receiveResponse α s parse handler messagesRaw = [] ∧
    Sqs.handlerSettleSuccess α s receiptHandle =
      [Ev.deleteCall receiptHandle] := by
  constructor
  · unfold Sqs.receiveResponse Sqs.processMessages
    simp [hd]
  · rfl

/-- Closed instance of the C3 amended theorem on a disposed instance with a
nonempty pending batch. -/
theorem c3_amended_dispose_guard_witness :
    (Sqs.mk false false false none 1 0 none true true true true true).isDisposed
      = true ∧
    (Sqs.receiveResponse Nat
        (Sqs.mk false false false none 1 0 none true true true true true)
        parseSeven (fun _ => HandlerResult.success)
        (some [JobItem.mk "7" "rh-9"]) = [] ∧
      Sqs.handlerSettleSuccess Nat
          (Sqs.mk false false false none 1 0 none true true true true true)
          "rh-9" =
        [Ev.deleteCall "rh-9"]) :=
  ⟨by decide,
   c3_amended_dispose_guard Nat
     (Sqs.mk false false false none 1 0 none true true true true true)
     parseSeven (fun _ => HandlerResult.success)
     (some [JobItem.mk "7" "rh-9"]) "rh-9" (by decide)⟩

/-- State of the long-poll worker pool at launch-atomic granularity: the
fixed required number of long polls, the in-flight counter (a JS number,
hence an integer), and for each launched orchestration batch the number of
its workers that have not yet settled; the map chain of a batch is pending
until that count reaches zero. This is the coarse view of the pool, in
which the workers scheduled by a pass start before any other pass reads
the counter; the faithful fine-grained view that separates scheduled
worker starts from started workers is FinePool below. -/
structure PoolState where
  longPollsRequired : Int
  longPollsInFlight : Int
  batches : List Nat
  deriving DecidableEq, Repr

/-- One orchestration pass of mainLoop, at launch-atomic granularity:
compute the deficit invokeLongPolls as required minus inFlight; when it is
not positive, return without doing anything; otherwise launch that many
receiveMessages workers by mapping over a fresh array of that length, each
incrementing the in-flight counter at its start. In the source those
mapped _receiveMessages invocations run on later turns of the promise
library, so this step fuses a pass with the starts of the workers it
schedules; finePass and fineStart below model the deferred starts as
separate steps. The launched workers form a new batch whose shared finally
will re-trigger mainLoop once all of them have settled. -/
def mainLoopStep (s : PoolState) : PoolState :=
  let invokeLongPolls := s.longPollsRequired - s.longPollsInFlight
  if invokeLongPolls ≤ 0 then s
  else
    PoolState.mk s.longPollsRequired (s.longPollsInFlight + invokeLongPolls)
      (invokeLongPolls.toNat :: s.batches)

/-- Settlement of one worker belonging to batch i: the worker finally
decrements the in-flight counter; when it was the last unsettled worker of
its batch, the map chain of the batch settles and the batch finally runs
mainLoop (the original function value, captured at chain construction).
That shared finally is the only point where worker completion re-triggers
the orchestration pass. -/
def settleStep (s : PoolState) (i : Nat) : PoolState :=
  let b := s.batches.getD i 0
  if b ≤ 1 then
    mainLoopStep
      (PoolState.mk s.longPollsRequired (s.longPollsInFlight - 1)
        (s.batches.eraseIdx i))
  else
    PoolState.mk s.longPollsRequired (s.longPollsInFlight - 1)
      (s.batches.set i (b - 1))

/-- The pool state right after startFetch stores the handler: no worker in
flight and no batch launched. -/
def initPool (required : Int) : PoolState :=
  PoolState.mk required 0 []

/-- A step of the pool: an orchestration pass (triggered by startFetch or
by the heartbeat) or the settlement of one still-running worker of some
batch. -/
inductive PoolStep : PoolState → PoolState → Prop where
  | mainLoop (s : PoolState) : PoolStep s (mainLoopStep s)
  | settle (s : PoolState) (i : Nat) (hi : i < s.batches.length)
      (hpos : 0 < s.batches.getD i 0) : PoolStep s (settleStep s i)

/-- The pool states an instance with the given required worker count can
reach from start under launch-atomic schedules, in which each pass and the
starts of the workers it schedules run without another pass in between. -/
inductive PoolReachable (required : Int) : PoolState → Prop where
  | init : PoolReachable required (initPool required)
  | step (s t : PoolState) (hs : PoolReachable required s)
      (hstep : PoolStep s t) : PoolReachable required t

/-- The pool invariant: the required count is the construction-time one,
the in-flight counter equals the total number of unsettled workers across
batches, and it never exceeds the required count. -/
def PoolInv (required : Int) (s : PoolState) : Prop :=
  s.longPollsRequired = required ∧
  s.longPollsInFlight = (s.batches.sum : Int) ∧
  s.longPollsInFlight ≤ required

theorem sum_eraseIdx_add (l : List Nat) (i : Nat) (hi : i < l.length) :
    (l.eraseIdx i).sum + l.getD i 0 = l.sum := by
  induction l generalizing i with
  | nil => simp at hi
  | cons a t ih =>
    cases i with
    | zero =>
      simp [List.eraseIdx]
      omega
    | succ j =>
      simp only [List.eraseIdx, List.sum_cons, List.getD_cons_succ]
      have := ih j (by simpa using hi)
      omega

theorem sum_set_add (l : List Nat) (i : Nat) (v : Nat) (hi : i < l.length) :
    (l.set i v).sum + l.getD i 0 = l.sum + v := by
  induction l generalizing i with
  | nil => simp at hi
  | cons a t ih =>
    cases i with
    | zero =>
      simp [List.set]
      omega
    | succ j =>
      simp only [List.set, List.sum_cons, List.getD_cons_succ]
      have := ih j (by simpa using hi)
      omega

theorem poolInv_mainLoopStep (required : Int) (s : PoolState)
    (h : PoolInv required s) : PoolInv required (mainLoopStep s) := by
  obtain ⟨h1, h2, h3⟩ := h
  unfold mainLoopStep
  by_cases hle : s.longPollsRequired - s.longPollsInFlight ≤ 0
  · simp only [hle, if_pos]
    exact ⟨h1, h2, h3⟩
  · simp only [hle, if_neg, not_false_iff]
    refine ⟨h1, ?_, ?_⟩
    · show s.longPollsInFlight + (s.longPollsRequired - s.longPollsInFlight) =
        (((s.longPollsRequired - s.longPollsInFlight).toNat :: s.batches).sum : Int)
      rw [List.sum_cons, Nat.cast_add, Int.toNat_of_nonneg (by omega)]
      omega
    · show s.longPollsInFlight + (s.longPollsRequired - s.longPollsInFlight) ≤ required
      omega

theorem poolInv_settleStep (required : Int) (s : PoolState) (i : Nat)
    (hi : i < s.batches.length) (hpos : 0 < s.batches.getD i 0)
    (h : PoolInv required s) : PoolInv required (settleStep s i) := by
  obtain ⟨h1, h2, h3⟩ := h
  unfold settleStep
  by_cases hb : s.batches.getD i 0 ≤ 1
  · have hb1 : s.batches.getD i 0 = 1 := by omega
    simp only [hb, if_pos]
    apply poolInv_mainLoopStep
    have he := sum_eraseIdx_add s.batches i hi
    refine ⟨h1, ?_, show s.longPollsInFlight - 1 ≤ required by omega⟩
    show s.longPollsInFlight - 1 = ((s.batches.eraseIdx i).sum : Int)
    omega
  · have hs := sum_set_add s.batches i (s.batches.getD i 0 - 1) hi
    simp only [hb, if_neg, not_false_iff]
    refine ⟨h1, ?_, show s.longPollsInFlight - 1 ≤ required by omega⟩
    show s.longPollsInFlight - 1 = ((s.batches.set i (s.batches.getD i 0 - 1)).sum : Int)
    omega

theorem poolInv_of_reachable (required : Int) (hreq : 0 ≤ required)
    (s : PoolState) (h : PoolReachable required s) : PoolInv required s := by
  induction h with
  | init => exact ⟨rfl, by simp [initPool], hreq⟩
  | step s t hs hstep ih =>
    cases hstep with
    | mainLoop => exact poolInv_mainLoopStep required s ih
    | settle i hi hpos => exact poolInv_settleStep required s i hi hpos ih

/-- The required worker count a successful construction stores, in terms of
the requested limit. -/
theorem mkSqs_ok_longPollsRequired (u : String) (L : Nat) (inst : Sqs)
    (hmk : mkSqs u L = Except.ok inst) :
    inst.longPollsRequired = if 10 < L then L / 10 else 1 := by
  unfold mkSqs at hmk
  by_cases h10 : 10 < L
  · by_cases hmod : L % 10 = 0
    · simp [h10, hmod] at hmk
      subst hmk
      simp [mkSqsState, h10]
    · simp [h10, hmod] at hmk
  · simp [h10] at hmk
    subst hmk
    simp [mkSqsState, h10]

/-- A launch batch at the fine-grained level: the mapper invocations of
_receiveMessages that one orchestration pass has scheduled but that have
not run yet (each will increment the in-flight counter only when it runs),
and the workers of the batch that have started and not yet settled. The
batch map chain resolves only when both counts reach zero. -/
structure Batch where
  pendingStarts : Nat
  running : Nat
  deriving DecidableEq, Repr

/-- Fine-grained state of the long-poll worker pool: the deferred worker
starts are separate from the started workers, matching the source, where
mainLoop schedules the mapped _receiveMessages invocations and the
increment at the top of _receiveMessages runs on a later turn of the
promise library. -/
structure FinePool where
  longPollsRequired : Int
  longPollsInFlight : Int
  batches : List Batch
  deriving DecidableEq, Repr

/-- One orchestration pass at the fine-grained level: read the counter,
compute the deficit invokeLongPolls, and when it is positive schedule that
many mapper invocations of _receiveMessages as a new batch; the counter is
not touched by the pass itself, because each increment runs only when its
scheduled invocation later executes. -/
def finePass (s : FinePool) : FinePool :=
  let invokeLongPolls := s.longPollsRequired - s.longPollsInFlight
  if invokeLongPolls ≤ 0 then s
  else
    FinePool.mk s.longPollsRequired s.longPollsInFlight
      (Batch.mk invokeLongPolls.toNat 0 :: s.batches)

/-- A scheduled worker of batch i starts: _receiveMessages runs, increments
the in-flight counter and issues its long poll. -/
def fineStart (s : FinePool) (i : Nat) : FinePool :=
  let b := s.batches.getD i (Batch.mk 0 0)
  FinePool.mk s.longPollsRequired (s.longPollsInFlight + 1)
    (s.batches.set i (Batch.mk (b.pendingStarts - 1) (b.running + 1)))

/-- A running worker of batch i settles: its finally decrements the
counter; when the whole batch is done (no pending start and no running
sibling left) the batch map chain resolves and its shared finally runs a
new orchestration pass. -/
def fineSettle (s : FinePool) (i : Nat) : FinePool :=
  let b := s.batches.getD i (Batch.mk 0 0)
  if b.pendingStarts = 0 ∧ b.running ≤ 1 then
    finePass
      (FinePool.mk s.longPollsRequired (s.longPollsInFlight - 1)
        (s.batches.eraseIdx i))
  else
    FinePool.mk s.longPollsRequired (s.longPollsInFlight - 1)
      (s.batches.set i (Batch.mk b.pendingStarts (b.running - 1)))

/-- A fine-grained step: an orchestration pass (startFetch, heartbeat or a
batch finally), the start of a scheduled worker, or the settlement of a
running worker. -/
inductive FineStep : FinePool → FinePool → Prop where
  | pass (s : FinePool) : FineStep s (finePass s)
  | start (s : FinePool) (i : Nat) (hi : i < s.batches.length)
      (hp : 0 < (s.batches.getD i (Batch.mk 0 0)).pendingStarts) :
      FineStep s (fineStart s i)
  | settle (s : FinePool) (i : Nat) (hi : i < s.batches.length)
      (hr : 0 < (s.batches.getD i (Batch.mk 0 0)).running) :
      FineStep s (fineSettle s i)

/-- The fine-grained pool state at startFetch: nothing scheduled, nothing
in flight. -/
def initFine (required : Int) : FinePool :=
  FinePool.mk required 0 []

/-- The fine-grained pool states an instance with the given required worker
count can reach from start, under every interleaving of passes, deferred
starts and settlements. -/
inductive FineReachable (required : Int) : FinePool → Prop where
  | init : FineReachable required (initFine required)
  | step (s t : FinePool) (hs : FineReachable required s)
      (hstep : FineStep s t) : FineReachable required t

/-- Fine-grained pool invariant: the required count is fixed and the
in-flight counter equals the total number of started, unsettled workers
(each worker increments once at start and decrements once at settle). -/
def FineInv (required : Int) (s : FinePool) : Prop :=
  s.longPollsRequired = required ∧
  s.longPollsInFlight = (((s.batches.map Batch.running).sum : Nat) : Int)

theorem sum_running_eraseIdx_add (l : List Batch) (i : Nat)
    (hi : i < l.length) :
    ((l.eraseIdx i).map Batch.running).sum +
        (l.getD i (Batch.mk 0 0)).running
      = (l.map Batch.running).sum := by
  induction l generalizing i with
  | nil => simp at hi
  | cons a t ih =>
    cases i with
    | zero =>
      simp [List.eraseIdx]
      omega
    | succ j =>
      simp only [List.eraseIdx, List.map_cons, List.sum_cons,
        List.getD_cons_succ]
      have := ih j (by simpa using hi)
      omega

theorem sum_running_set_add (l : List Batch) (i : Nat) (b : Batch)
    (hi : i < l.length) :
    ((l.set i b).map Batch.running).sum + (l.getD i (Batch.mk 0 0)).running
      = (l.map Batch.running).sum + b.running := by
  induction l generalizing i with
  | nil => simp at hi
  | cons a t ih =>
    cases i with
    | zero =>
      simp [List.set]
      omega
    | succ j =>
      simp only [List.set, List.map_cons, List.sum_cons, List.getD_cons_succ]
      have := ih j (by simpa using hi)
      omega

theorem fineInv_finePass (required : Int) (s : FinePool)
    (h : FineInv required s) : FineInv required (finePass s) := by
  obtain ⟨h1, h2⟩ := h
  unfold finePass
  by_cases hle : s.longPollsRequired - s.longPollsInFlight ≤ 0
  · rw [if_pos hle]
    exact ⟨h1, h2⟩
  · rw [if_neg hle]
    refine ⟨h1, ?_⟩
    simpa using h2

theorem fineInv_fineStart (required : Int) (s : FinePool) (i : Nat)
    (hi : i < s.batches.length) (h : FineInv required s) :
    FineInv required (fineStart s i) := by
  obtain ⟨h1, h2⟩ := h
  have hset :
      ((s.batches.set i
          (Batch.mk ((s.batches.getD i (Batch.mk 0 0)).pendingStarts - 1)
            ((s.batches.getD i (Batch.mk 0 0)).running + 1))).map
          Batch.running).sum +
        (s.batches.getD i (Batch.mk 0 0)).running
      = (s.batches.map Batch.running).sum +
        ((s.batches.getD i (Batch.mk 0 0)).running + 1) :=
    sum_running_set_add s.batches i
      (Batch.mk ((s.batches.getD i (Batch.mk 0 0)).pendingStarts - 1)
        ((s.batches.getD i (Batch.mk 0 0)).running + 1)) hi
  refine ⟨h1, ?_⟩
  show s.longPollsInFlight + 1 =
    ((((s.batches.set i
        (Batch.mk ((s.batches.getD i (Batch.mk 0 0)).pendingStarts - 1)
          ((s.batches.getD i (Batch.mk 0 0)).running + 1))).map
        Batch.running).sum : Nat) : Int)
  omega

theorem fineInv_fineSettle (required : Int) (s : FinePool) (i : Nat)
    (hi : i < s.batches.length)
    (hr : 0 < (s.batches.getD i (Batch.mk 0 0)).running)
    (h : FineInv required s) : FineInv required (fineSettle s i) := by
  obtain ⟨h1, h2⟩ := h
  unfold fineSettle
  by_cases hex : (s.batches.getD i (Batch.mk 0 0)).pendingStarts = 0 ∧
      (s.batches.getD i (Batch.mk 0 0)).running ≤ 1
  · obtain ⟨hex1, hex2⟩ := hex
    rw [if_pos ⟨hex1, hex2⟩]
    apply fineInv_finePass
    have he := sum_running_eraseIdx_add s.batches i hi
    refine ⟨h1, ?_⟩
    show s.longPollsInFlight - 1 =
      ((((s.batches.eraseIdx i).map Batch.running).sum : Nat) : Int)
    omega
  · rw [if_neg hex]
    have hset :
        ((s.batches.set i
            (Batch.mk (s.batches.getD i (Batch.mk 0 0)).pendingStarts
              ((s.batches.getD i (Batch.mk 0 0)).running - 1))).map
            Batch.running).sum +
          (s.batches.getD i (Batch.mk 0 0)).running
        = (s.batches.map Batch.running).sum +
          ((s.batches.getD i (Batch.mk 0 0)).running - 1) :=
      sum_running_set_add s.batches i
        (Batch.mk (s.batches.getD i (Batch.mk 0 0)).pendingStarts
          ((s.batches.getD i (Batch.mk 0 0)).running - 1)) hi
    refine ⟨h1, ?_⟩
    show s.longPollsInFlight - 1 =
      ((((s.batches.set i
          (Batch.mk (s.batches.getD i (Batch.mk 0 0)).pendingStarts
            ((s.batches.getD i (Batch.mk 0 0)).running - 1))).map
          Batch.running).sum : Nat) : Int)
    omega

theorem fineInv_of_reachable (required : Int) (s : FinePool)
    (h : FineReachable required s) : FineInv required s := by
  induction h with
  | init => exact ⟨rfl, by simp [initFine]⟩
  | step s t hs hstep ih =>
    cases hstep with
    | pass => exact fineInv_finePass required s ih
    | start i hi hp => exact fineInv_fineStart required s i hi ih
    | settle i hi hr => exact fineInv_fineSettle required s i hi hr ih

/-- C4 counterexample: the increment of the in-flight counter runs only
when the promise library later invokes a scheduled _receiveMessages, so an
orchestration pass can read the counter before the workers scheduled by an
earlier pass have started. Trace for the limit 20 (required workers
20 / 10 = 2): a pass launches a batch of two; both workers start; one
settles (its sibling still runs, so no re-trigger); a heartbeat pass reads
inFlight 1 and schedules one more worker; before that worker starts, the
remaining first-batch worker settles and its batch finally pass reads
inFlight 0 and schedules two more; the three scheduled workers then all
start, putting three receive operations in flight, above the claimed
at-all-times bound requiredWorkers = 2 = 20 / 10. -/
theorem c4_counterexample :
    mkSqs "u" 20 = Except.ok (mkSqsState "u" 20 2) ∧
    (((mkSqsState "u" 20 2).longPollsRequired : Nat) : Int) = 2 ∧
    FineReachable 2 (FinePool.mk 2 3 [Batch.mk 0 2, Batch.mk 0 1]) ∧
    ¬((FinePool.mk 2 3 [Batch.mk 0 2, Batch.mk 0 1]).longPollsInFlight ≤ 2) ∧
    ¬((FinePool.mk 2 3 [Batch.mk 0 2, Batch.mk 0 1]).longPollsInFlight ≤
        ((20 / 10 : Nat) : Int)) := by
  refine ⟨by decide, by decide, ?_, by decide, by decide⟩
  have e1 : finePass (initFine 2) = FinePool.mk 2 0 [Batch.mk 2 0] := by
    decide
  have t1 : FineReachable 2 (FinePool.mk 2 0 [Batch.mk 2 0]) :=
    e1 ▸ FineReachable.step _ _ FineReachable.init (FineStep.pass _)
  have e2 : fineStart (FinePool.mk 2 0 [Batch.mk 2 0]) 0 =
      FinePool.mk 2 1 [Batch.mk 1 1] := by decide
  have t2 : FineReachable 2 (FinePool.mk 2 1 [Batch.mk 1 1]) :=
    e2 ▸ FineReachable.step _ _ t1 (FineStep.start _ 0 (by decide) (by decide))
  have e3 : fineStart (FinePool.mk 2 1 [Batch.mk 1 1]) 0 =
      FinePool.mk 2 2 [Batch.mk 0 2] := by decide
  have t3 : FineReachable 2 (FinePool.mk 2 2 [Batch.mk 0 2]) :=
    e3 ▸ FineReachable.step _ _ t2 (FineStep.start _ 0 (by decide) (by decide))
  have e4 : fineSettle (FinePool.mk 2 2 [Batch.mk 0 2]) 0 =
      FinePool.mk 2 1 [Batch.mk 0 1] := by decide
  have t4 : FineReachable 2 (FinePool.mk 2 1 [Batch.mk 0 1]) :=
    e4 ▸ FineReachable.step _ _ t3 (FineStep.settle _ 0 (by decide) (by decide))
  have e5 : finePass (FinePool.mk 2 1 [Batch.mk 0 1]) =
      FinePool.mk 2 1 [Batch.mk 1 0, Batch.mk 0 1] := by decide
  have t5 : FineReachable 2 (FinePool.mk 2 1 [Batch.mk 1 0, Batch.mk 0 1]) :=
    e5 ▸ FineReachable.step _ _ t4 (FineStep.pass _)
  have e6 : fineSettle (FinePool.mk 2 1 [Batch.mk 1 0, Batch.mk 0 1]) 1 =
      FinePool.mk 2 0 [Batch.mk 2 0, Batch.mk 1 0] := by decide
  have t6 : FineReachable 2 (FinePool.mk 2 0 [Batch.mk 2 0, Batch.mk 1 0]) :=
    e6 ▸ FineReachable.step _ _ t5 (FineStep.settle _ 1 (by decide) (by decide))
  have e7 : fineStart (FinePool.mk 2 0 [Batch.mk 2 0, Batch.mk 1 0]) 0 =
      FinePool.mk 2 1 [Batch.mk 1 1, Batch.mk 1 0] := by decide
  have t7 : FineReachable 2 (FinePool.mk 2 1 [Batch.mk 1 1, Batch.mk 1 0]) :=
    e7 ▸ FineReachable.step _ _ t6 (FineStep.start _ 0 (by decide) (by decide))
  have e8 : fineStart (FinePool.mk 2 1 [Batch.mk 1 1, Batch.mk 1 0]) 0 =
      FinePool.mk 2 2 [Batch.mk 0 2, Batch.mk 1 0] := by decide
  have t8 : FineReachable 2 (FinePool.mk 2 2 [Batch.mk 0 2, Batch.mk 1 0]) :=
    e8 ▸ FineReachable.step _ _ t7 (FineStep.start _ 0 (by decide) (by decide))
  have e9 : fineStart (FinePool.mk 2 2 [Batch.mk 0 2, Batch.mk 1 0]) 1 =
      FinePool.mk 2 3 [Batch.mk 0 2, Batch.mk 0 1] := by decide
  exact e9 ▸ FineReachable.step _ _ t8 (FineStep.start _ 1 (by decide) (by decide))

/-- C4 amended: for every valid limit L, the in-flight counter is never
negative in any reachable fine-grained state (it equals the number of
started, unsettled workers); and the upper bound, that the counter and
hence the number of outstanding receive operations never exceeds
requiredWorkers (L / 10 for L above 10), holds for the states reachable
under launch-atomic schedules, in which the workers scheduled by an
orchestration pass start before the next pass reads the counter; when a
batch finally or heartbeat pass interleaves with deferred worker starts,
the counter can transiently exceed requiredWorkers. -/
theorem c4_amended_inflight_bounds (u : String) (L : Nat) (inst : Sqs)
    (hmk : mkSqs u L = Except.ok inst) :
    (∀ s : FinePool,
      FineReachable ((inst.longPollsRequired : Nat) : Int) s →
        0 ≤ s.longPollsInFlight) ∧
    (∀ s : PoolState,
      PoolReachable ((inst.longPollsRequired : Nat) : Int) s →
        s.longPollsInFlight ≤ ((inst.longPollsRequired : Nat) : Int) ∧
        (10 < L → s.longPollsInFlight ≤ ((L / 10 : Nat) : Int))) := by
  constructor
  · intro s hs
    obtain ⟨h1, h2⟩ :=
      fineInv_of_reachable ((inst.longPollsRequired : Nat) : Int) s hs
    rw [h2]
    positivity
  · intro s hs
    obtain ⟨h1, h2, h3⟩ :=
      poolInv_of_reachable ((inst.longPollsRequired : Nat) : Int)
        (by positivity) s hs
    refine ⟨h3, ?_⟩
    intro h10
    have hreq := mkSqs_ok_longPollsRequired u L inst hmk
    rw [if_pos h10] at hreq
    rw [hreq] at h3
    exact h3

/-- Closed instance of the C4 amended theorem for the limit 20. -/
theorem c4_amended_inflight_bounds_witness :
    mkSqs "u" 20 = Except.ok (mkSqsState "u" 20 2) ∧
    ((∀ s : FinePool,
        FineReachable (((mkSqsState "u" 20 2).longPollsRequired : Nat) : Int)
            s →
          0 ≤ s.longPollsInFlight) ∧
      (∀ s : PoolState,
        PoolReachable (((mkSqsState "u" 20 2).longPollsRequired : Nat) : Int)
            s →
          s.longPollsInFlight ≤
            (((mkSqsState "u" 20 2).longPollsRequired : Nat) : Int) ∧
          (10 < 20 → s.longPollsInFlight ≤ ((20 / 10 : Nat) : Int)))) :=
  ⟨by decide,
   c4_amended_inflight_bounds "u" 20 (mkSqsState "u" 20 2) (by decide)⟩

/-- C7 counterexample: with two required workers, one orchestration pass
launches a batch of two; the settlement of the first worker decrements the
in-flight counter to 1 but does not re-trigger the orchestration pass,
because the mainLoop re-trigger is the shared finally of the whole batch
map and the sibling worker is still running. Had the pass re-run
immediately on that settlement, as the claim states, the deficit 2 - 1 = 1
would have been closed at once and the in-flight counter would be back at
2, which is what mainLoopStep applied to the decremented state produces. -/
theorem c7_counterexample :
    mainLoopStep (initPool 2) = PoolState.mk 2 2 [2] ∧
    settleStep (PoolState.mk 2 2 [2]) 0 = PoolState.mk 2 1 [1] ∧
    mainLoopStep (PoolState.mk 2 1 [1]) = PoolState.mk 2 2 [1, 1] ∧
    settleStep (PoolState.mk 2 2 [2]) 0 ≠ mainLoopStep (PoolState.mk 2 1 [1]) := by
  decide

/-- C7 amended: every worker settlement decrements the in-flight counter;
the orchestration pass is re-triggered by the shared finally of a launch
batch exactly when the last worker of that batch settles, at which point
the deficit computation re-runs and tops the pool back up to the required
count; while siblings of the same batch are still in flight, the
settlement performs only the decrement and no pass runs. -/
theorem c7_amended_batch_retrigger (required : Int) (s : PoolState) (i : Nat)
    (hi : i < s.batches.length) (hpos : 0 < s.batches.getD i 0)
    (hinv : PoolInv required s) :
    (s.batches.getD i 0 = 1 →
      settleStep s i =
        mainLoopStep
          (PoolState.mk s.longPollsRequired (s.longPollsInFlight - 1)
            (s.batches.eraseIdx i)) ∧
      (settleStep s i).longPollsInFlight = required) ∧
    (1 < s.batches.getD i 0 →
      settleStep s i =
        PoolState.mk s.longPollsRequired (s.longPollsInFlight - 1)
          (s.batches.set i (s.batches.getD i 0 - 1))) := by
  obtain ⟨h1, h2, h3⟩ := hinv
  constructor
  · intro hb1
    constructor
    · unfold settleStep
      rw [hb1]
      simp
    · unfold settleStep
      rw [hb1]
      simp only [le_refl, if_pos]
      unfold mainLoopStep
      rw [if_neg (show ¬ s.longPollsRequired - (s.longPollsInFlight - 1) ≤ 0 by omega)]
      show s.longPollsInFlight - 1 + (s.longPollsRequired - (s.longPollsInFlight - 1))
        = required
      omega
  · intro hb2
    unfold settleStep
    rw [if_neg (show ¬ s.batches.getD i 0 ≤ 1 by omega)]

/-- Closed instance of the C7 amended theorem: a one-worker batch whose
settlement re-triggers the pass, on a pool with two required workers. -/
theorem c7_amended_batch_retrigger_witness :
    (0 < (PoolState.mk 2 1 [1]).batches.getD 0 0 ∧
      ((PoolState.mk 2 1 [1]).longPollsRequired = 2 ∧
        (PoolState.mk 2 1 [1]).longPollsInFlight =
          (((PoolState.mk 2 1 [1]).batches.sum : Nat) : Int) ∧
        (PoolState.mk 2 1 [1]).longPollsInFlight ≤ 2)) ∧
    (((PoolState.mk 2 1 [1]).batches.getD 0 0 = 1 →
      settleStep (PoolState.mk 2 1 [1]) 0 =
        mainLoopStep
          (PoolState.mk (PoolState.mk 2 1 [1]).longPollsRequired
            ((PoolState.mk 2 1 [1]).longPollsInFlight - 1)
            ((PoolState.mk 2 1 [1]).batches.eraseIdx 0)) ∧
      (settleStep (PoolState.mk 2 1 [1]) 0).longPollsInFlight = 2) ∧
    (1 < (PoolState.mk 2 1 [1]).batches.getD 0 0 →
      settleStep (PoolState.mk 2 1 [1]) 0 =
        PoolState.mk (PoolState.mk 2 1 [1]).longPollsRequired
          ((PoolState.mk 2 1 [1]).longPollsInFlight - 1)
          ((PoolState.mk 2 1 [1]).batches.set 0
            ((PoolState.mk 2 1 [1]).batches.getD 0 0 - 1)))) :=
  ⟨⟨by decide, by decide, by decide, by decide⟩,
   c7_amended_batch_retrigger 2 (PoolState.mk 2 1 [1]) 0 (by decide) (by decide)
     ⟨by decide, by decide, by decide⟩⟩

end NodeSqs
